import Mathlib

/-!
Verification of the AssemblyScript compiler core (semantic analysis and
lowering to a binaryen-style IR).  Shallow embedding of:

* the reflection type model (`Ty`, modelled from the spec: the reflection
  module itself is not part of the sources under verification, only its
  callers are);
* the conversion engine `Compiler.maybeConvertValue`;
* the expression lowerers `compileIdentifier` and `compilePrefixUnary`;
* the statement lowerer for `while` together with the break contexts;
* local-slot allocation (`onVariable`), global-name mangling,
  compiler construction, the initialization pass (globals and the
  allocator library) and the start-function synthesizer.

Machine integers are modelled as `Int` with explicit wrapping where it
matters; the IR is a plain inductive (`Expr`) with a partial evaluator
for the i32 fragment used to settle value-level claims.
-/

/-- Modelled from the spec: the reflection module's type kinds (the
reflection module is not among the sources; the spec lists the tagged
variant `void`, the signed integers sbyte/short/int/long, the unsigned
integers bool/byte/ushort/uint/ulong, floats float/double and the
pointer-sized `uintptr`). -/
inductive TypeKind
  | void | bool | byte | sbyte | short | ushort | int | uint
  | long | ulong | float | double | uintptr
deriving DecidableEq, Repr

/-- Modelled from the spec: the closed set of primitive reflection types.
`uintptr` exists in a 4-byte and an 8-byte variant (the spec: its width is
fixed per compilation to 4 or 8); both share the kind `uintptr`. -/
inductive Ty
  | void | bool | byte | sbyte | short | ushort | int | uint
  | long | ulong | float | double | uintptr32 | uintptr64
deriving DecidableEq, Repr, Fintype

/-- Kind tag of a type (both `uintptr` widths share one kind). -/
def Ty.kind : Ty → TypeKind
  | .void => .void
  | .bool => .bool
  | .byte => .byte
  | .sbyte => .sbyte
  | .short => .short
  | .ushort => .ushort
  | .int => .int
  | .uint => .uint
  | .long => .long
  | .ulong => .ulong
  | .float => .float
  | .double => .double
  | .uintptr32 => .uintptr
  | .uintptr64 => .uintptr

/-- Modelled from the spec: byte size of a value of the type (used for
class layout and the widening/narrowing comparisons); a `bool` occupies
one byte like a `byte`. -/
def Ty.size : Ty → Nat
  | .void => 0
  | .bool => 1
  | .byte => 1
  | .sbyte => 1
  | .short => 2
  | .ushort => 2
  | .int => 4
  | .uint => 4
  | .long => 8
  | .ulong => 8
  | .float => 4
  | .double => 8
  | .uintptr32 => 4
  | .uintptr64 => 8

/-- Modelled from the spec: bit width of the type; the spec lists the
widths in parentheses (`bool(1)`, `byte(8)`, ..., `long(64)`). -/
def Ty.bitWidth : Ty → Nat
  | .void => 0
  | .bool => 1
  | .byte => 8
  | .sbyte => 8
  | .short => 16
  | .ushort => 16
  | .int => 32
  | .uint => 32
  | .long => 64
  | .ulong => 64
  | .float => 32
  | .double => 64
  | .uintptr32 => 32
  | .uintptr64 => 64

/-- Modelled from the spec: `isSigned` holds exactly for the signed
integer types sbyte, short, int and long. -/
def Ty.isSigned (t : Ty) : Bool :=
  match t with
  | .sbyte | .short | .int | .long => true
  | _ => false

/-- Modelled from the spec: `isInt` holds exactly for the 32-bit integer
types, i.e. int, uint and the 4-byte `uintptr` (the spec: "No narrowing
when `from.size ≤ to.size` and `to.isInt`", i.e. full-width i32 targets
need no narrowing; narrow types byte/short/bool are not `isInt`). -/
def Ty.isInt (t : Ty) : Bool :=
  match t with
  | .int | .uint | .uintptr32 => true
  | _ => false

/-- Modelled from the spec: `isLong` holds exactly for the 64-bit integer
types long, ulong and the 8-byte `uintptr`. -/
def Ty.isLong (t : Ty) : Bool :=
  match t with
  | .long | .ulong | .uintptr64 => true
  | _ => false

/-- Modelled from the spec: `shift32 = 32 - bitwidth` (the shift amount
used by the sign-extension idiom when narrowing inside the i32 family). -/
def Ty.shift32 (t : Ty) : Int := (32 : Int) - t.bitWidth

/-- Modelled from the spec: `mask32` is the low-`bitwidth` mask used when
narrowing to an unsigned type inside the i32 family. -/
def Ty.mask32 (t : Ty) : Int := (2 : Int) ^ t.bitWidth - 1

/-- The 32-bit integer family: the integer types represented as wasm i32
(bool, byte, sbyte, short, ushort, int, uint and the 4-byte uintptr). -/
def Ty.isIntegerFamily32 (t : Ty) : Bool :=
  match t with
  | .bool | .byte | .sbyte | .short | .ushort | .int | .uint | .uintptr32 => true
  | _ => false

/-- Modelled from the spec: binaryen value types. -/
inductive WasmType
  | i32 | i64 | f32 | f64 | noneTy
deriving DecidableEq, Repr

/-- Modelled from the spec: `binaryen.typeOf(type, uintptrSize)` maps a
reflection type to its binaryen value type. -/
def typeOf (t : Ty) (uintptrSize : Nat) : WasmType :=
  match t with
  | .void => .noneTy
  | .long | .ulong => .i64
  | .float => .f32
  | .double => .f64
  | .uintptr32 => .i32
  | .uintptr64 => .i64
  | _ => let _ := uintptrSize; .i32

/-- Diagnostics: category plus message (source locations are dropped by
the model; the optional argument string of `error`/`warn` is dropped as
well). -/
inductive Diag
  | errorD (msg : String)
  | warnD (msg : String)
  | infoD (msg : String)
deriving DecidableEq, Repr

/-- Source AST expressions, restricted to the node kinds exercised by the
claims (identifier, numeric literal, prefix unary, true/false/null). -/
inductive AstExpr
  | ident (name : String)
  | numLit (v : Int)
  | unary (op : Nat) (operand : AstExpr)
  | trueLit
  | falseLit
  | nullLit
deriving DecidableEq, Repr

/-- Operator tokens for prefix unary expressions (SyntaxKind values are
opaque; fixed small numbers stand in for them). -/
def exclamationTok : Nat := 0

def plusTok : Nat := 1

def minusTok : Nat := 2

def tildeTok : Nat := 3

/-- Binaryen-style IR expressions (statements and expressions share one
type, as in binaryen).  The constructor `astNode` embeds a raw source AST
node: JavaScript is untyped, so a lowerer may (erroneously) hand an AST
node to an instruction factory where an IR expression is expected; the
embedding keeps such a value distinguishable from every real IR node. -/
inductive Expr
  | i32const (v : Int)
  | i64const (low high : Int)
  | f32const (v : Int)
  | f64const (v : Int)
  | i32add (a b : Expr)
  | i32sub (a b : Expr)
  | i64sub (a b : Expr)
  | i32and (a b : Expr)
  | i32xor (a b : Expr)
  | i64xor (a b : Expr)
  | i32shl (a b : Expr)
  | i32shr_s (a b : Expr)
  | i32eqz (a : Expr)
  | i64eqz (a : Expr)
  | f32eq (a b : Expr)
  | f64eq (a b : Expr)
  | f32neg (a : Expr)
  | f64neg (a : Expr)
  | i32wrap (a : Expr)
  | i64extend_s (a : Expr)
  | i64extend_u (a : Expr)
  | i32trunc_s_f32 (a : Expr)
  | i32trunc_u_f32 (a : Expr)
  | i32trunc_s_f64 (a : Expr)
  | i32trunc_u_f64 (a : Expr)
  | i64trunc_s_f32 (a : Expr)
  | i64trunc_u_f32 (a : Expr)
  | i64trunc_s_f64 (a : Expr)
  | i64trunc_u_f64 (a : Expr)
  | f32demote (a : Expr)
  | f64promote (a : Expr)
  | f32convert_s_i32 (a : Expr)
  | f32convert_u_i32 (a : Expr)
  | f32convert_s_i64 (a : Expr)
  | f32convert_u_i64 (a : Expr)
  | f64convert_s_i32 (a : Expr)
  | f64convert_u_i32 (a : Expr)
  | f64convert_s_i64 (a : Expr)
  | f64convert_u_i64 (a : Expr)
  | getLocal (idx : Nat) (ty : WasmType)
  | setLocal (idx : Nat) (v : Expr)
  | teeLocal (idx : Nat) (v : Expr)
  | getGlobal (name : String) (ty : WasmType)
  | setGlobal (name : String) (v : Expr)
  | call (target : String) (args : List Expr) (retTy : WasmType)
  | block (label : String) (body : List Expr)
  | loop (label : String) (body : Expr)
  | if_ (cond ifTrue : Expr)
  | br (label : String)
  | ret (v : Expr)
  | nop
  | unreachable
  | astNode (a : AstExpr)

/-- Modelled from the spec: `binaryen.valueOf(type, module, value)`, the
typed zero/constant factory used for globals and small constants. -/
def valueOf (t : Ty) (v : Int) : Expr :=
  match t with
  | .float => .f32const v
  | .double => .f64const v
  | .long | .ulong | .uintptr64 => .i64const v (if v < 0 then -1 else 0)
  | _ => .i32const v

def illegalConversionMsg : String := "Illegal implicit conversion"

def wasm64WarningMsg : String :=
  "Implicit conversion from uintptr to uint will fail when targeting WASM64"

def wasm32WarningMsg : String :=
  "Implicit conversion from ulong to uintptr will fail when targeting WASM32"

/-- The final "int to other int" section of `Compiler.maybeConvertValue`
(source lines 884-909): pass through when widening or when the target is a
full 32-bit integer; otherwise report an illegal implicit conversion when
not explicit, and narrow -- sign-extend idiom `shl(shr_s(e, shift32),
shift32)` for signed targets, `and(e, mask32)` for unsigned targets. -/
def intToOtherInt (expr : Expr) (fromType toType : Ty) (explicit : Bool) :
    Expr × List Diag :=
  if fromType.size < toType.size || toType.isInt then
    (expr, [])
  else
    let ds : List Diag := if !explicit then [.errorD illegalConversionMsg] else []
    if toType.isSigned then
      (.i32shl (.i32shr_s expr (.i32const toType.shift32)) (.i32const toType.shift32), ds)
    else
      (.i32and expr (.i32const toType.mask32), ds)

/-- Weight used for the termination of `maybeConvertValue`: the only
recursive calls happen in the float/double source branches and pass
`intType` as the new source type. -/
def convWeight : Ty → Nat
  | .float => 1
  | .double => 1
  | _ => 0

/-- `Compiler.maybeConvertValue` (source lines 721-909): convert `expr` of
type `fromType` to `toType`, collecting diagnostics.  Returns the pair of
the converted expression and the emitted diagnostics, in emission order.
The source's `illegalImplicitConversion` closure reports once and flips
the local `explicit` flag; the model threads the updated flag explicitly.
Unmatched switch cases fall through to the trailing int-to-int section,
exactly as the JavaScript control flow does. -/
def maybeConvertValue (us : Nat) (expr : Expr) (fromType toType : Ty)
    (explicit : Bool) : Expr × List Diag :=
  if fromType.kind = toType.kind then
    (expr, [])
  else
    -- pointer-width warnings (source lines 733-740), only when implicit
    let warns : List Diag :=
      (if !explicit && us == 4 && fromType.kind == TypeKind.uintptr && toType.isInt
        then [.warnD wasm64WarningMsg] else []) ++
      (if !explicit && us == 8 && fromType.isLong && toType.kind == TypeKind.uintptr
        then [.warnD wasm32WarningMsg] else [])
    if _hf : fromType = Ty.float then
      let pre : List Diag × Bool :=
        if !explicit && !(toType = Ty.double) then ([.errorD illegalConversionMsg], true)
        else ([], explicit)
      match toType with
      | .byte | .ushort | .uint | .uintptr32 | .bool =>
        let r := maybeConvertValue us (.i32trunc_u_f32 expr) .int toType pre.2
        (r.1, warns ++ pre.1 ++ r.2)
      | .sbyte | .short | .int =>
        let r := maybeConvertValue us (.i32trunc_s_f32 expr) .int toType pre.2
        (r.1, warns ++ pre.1 ++ r.2)
      | .uintptr64 | .ulong => (.i64trunc_u_f32 expr, warns ++ pre.1)
      | .long => (.i64trunc_s_f32 expr, warns ++ pre.1)
      | .double => (.f64promote expr, warns ++ pre.1)
      | _ =>
        let r := intToOtherInt expr fromType toType pre.2
        (r.1, warns ++ pre.1 ++ r.2)
    else if _hd : fromType = Ty.double then
      let pre : List Diag × Bool :=
        if !explicit then ([.errorD illegalConversionMsg], true) else ([], explicit)
      match toType with
      | .byte | .ushort | .uint | .uintptr32 | .bool =>
        let r := maybeConvertValue us (.i32trunc_u_f64 expr) .int toType pre.2
        (r.1, warns ++ pre.1 ++ r.2)
      | .sbyte | .short | .int =>
        let r := maybeConvertValue us (.i32trunc_s_f64 expr) .int toType pre.2
        (r.1, warns ++ pre.1 ++ r.2)
      | .ulong | .uintptr64 => (.i64trunc_u_f64 expr, warns ++ pre.1)
      | .long => (.i64trunc_s_f64 expr, warns ++ pre.1)
      | .float => (.f32demote expr, warns ++ pre.1)
      | _ =>
        let r := intToOtherInt expr fromType toType pre.2
        (r.1, warns ++ pre.1 ++ r.2)
    else if toType = Ty.float then
      -- int to float; the uint/uintptr32 and int cases fall through into
      -- the conversion below after reporting (JS switch fall-through)
      match fromType with
      | .uint | .uintptr32 =>
        let pre : List Diag := if !explicit then [.errorD illegalConversionMsg] else []
        (.f32convert_u_i32 expr, warns ++ pre)
      | .byte | .ushort | .bool => (.f32convert_u_i32 expr, warns)
      | .int =>
        let pre : List Diag := if !explicit then [.errorD illegalConversionMsg] else []
        (.f32convert_s_i32 expr, warns ++ pre)
      | .sbyte | .short => (.f32convert_s_i32 expr, warns)
      | .ulong | .uintptr64 =>
        let pre : List Diag := if !explicit then [.errorD illegalConversionMsg] else []
        (.f32convert_u_i64 expr, warns ++ pre)
      | .long =>
        let pre : List Diag := if !explicit then [.errorD illegalConversionMsg] else []
        (.f32convert_s_i64 expr, warns ++ pre)
      | _ =>
        let r := intToOtherInt expr fromType toType explicit
        (r.1, warns ++ r.2)
    else if toType = Ty.double then
      match fromType with
      | .uint | .uintptr32 | .byte | .ushort | .bool => (.f64convert_u_i32 expr, warns)
      | .int | .sbyte | .short => (.f64convert_s_i32 expr, warns)
      | .ulong | .uintptr64 =>
        let pre : List Diag := if !explicit then [.errorD illegalConversionMsg] else []
        (.f64convert_u_i64 expr, warns ++ pre)
      | .long =>
        let pre : List Diag := if !explicit then [.errorD illegalConversionMsg] else []
        (.f64convert_s_i64 expr, warns ++ pre)
      | _ =>
        let r := intToOtherInt expr fromType toType explicit
        (r.1, warns ++ r.2)
    else if fromType.isInt && toType.isLong then
      (if toType.isSigned then .i64extend_s expr else .i64extend_u expr, warns)
    else if fromType.isLong && toType.isInt then
      let pre : List Diag × Bool :=
        if !explicit then ([.errorD illegalConversionMsg], true) else ([], explicit)
      -- wrap, retype the source as int/uint, fall through to the tail
      let r := intToOtherInt (.i32wrap expr)
        (if fromType.isSigned then Ty.int else Ty.uint) toType pre.2
      (r.1, warns ++ pre.1 ++ r.2)
    else
      let r := intToOtherInt expr fromType toType explicit
      (r.1, warns ++ r.2)
termination_by convWeight fromType
decreasing_by
  all_goals subst_vars
  all_goals simp [convWeight]

/-! ## A partial evaluator for the i32 fragment of the IR

Standard WebAssembly semantics for the handled instructions; values are
signed 32-bit integers represented as `Int` in `[-2^31, 2^31)`.  Used to
settle value-level claims about emitted conversion code. -/

/-- Unsigned 32-bit representative of an integer. -/
def toU32 (v : Int) : Nat := (v % 4294967296).toNat

/-- Signed 32-bit value of an unsigned 32-bit representative. -/
def ofU32 (n : Nat) : Int :=
  if n % 4294967296 < 2147483648 then (n % 4294967296 : Int)
  else (n % 4294967296 : Int) - 4294967296

/-- Evaluate the i32 fragment (const, and, shl, shr_s, sub, add); every
other instruction evaluates to `none`. -/
def evalI32 : Expr → Option Int
  | .i32const v => some (ofU32 (toU32 v))
  | .i32and a b => do
    let x ← evalI32 a
    let y ← evalI32 b
    some (ofU32 (Nat.land (toU32 x) (toU32 y)))
  | .i32shl a b => do
    let x ← evalI32 a
    let y ← evalI32 b
    some (ofU32 (Nat.shiftLeft (toU32 x) (toU32 y % 32)))
  | .i32shr_s a b => do
    let x ← evalI32 a
    let y ← evalI32 b
    some (ofU32 (toU32 (Int.fdiv (ofU32 (toU32 x)) ((2 : Int) ^ (toU32 y % 32)))))
  | .i32sub a b => do
    let x ← evalI32 a
    let y ← evalI32 b
    some (ofU32 (toU32 (x - y)))
  | .i32add a b => do
    let x ← evalI32 a
    let y ← evalI32 b
    some (ofU32 (toU32 (x + y)))
  | _ => none

/-! ## Expression lowering -/

/-- `reflection.Variable`: name, type and local slot index (the variable
flags play no role in the verified claims and are dropped). -/
structure Variable where
  name : String
  ty : Ty
  index : Nat
deriving DecidableEq, Repr

/-- Result of lowering an expression: the IR expression, the reflected
type the lowerer attached to the node (`setReflectedType`), and the
diagnostics it emitted. -/
structure ExprResult where
  expr : Expr
  ty : Ty
  diags : List Diag

/-- `compileIdentifier` (src/expressions/identifier.ts): look the name up
in `currentLocals`; on a hit emit `get_local` typed by the local's type,
on a miss report "Undefined local variable" and emit `unreachable` with
the contextual type as the reflected type. -/
def compileIdentifier (currentLocals : List (String × Variable)) (us : Nat)
    (name : String) (contextualType : Ty) : ExprResult :=
  match currentLocals.lookup name with
  | some referencedLocal =>
    ⟨.getLocal referencedLocal.index (typeOf referencedLocal.ty us),
      referencedLocal.ty, []⟩
  | none => ⟨.unreachable, contextualType, [.errorD "Undefined local variable"]⟩

/-- Modelled from the spec: `compileLiteral` (the literal lowerer is not
among the sources) "emits the typed constant" at the contextual type. -/
def compileLiteral (v : Int) (contextualType : Ty) : ExprResult :=
  ⟨valueOf contextualType v, contextualType, []⟩

/-- The body of `compilePrefixUnary` (src/expressions/prefixunary) after
its initial operand compilation: `operandRes` is the already-lowered
operand and `operandAst` the raw operand AST node.  Note that in the
minus case for float/double the source passes `node.operand` -- the AST
node, not the lowered operand -- to `f32.neg`/`f64.neg`; the embedding
reproduces this with the `Expr.astNode` injection.  The `++`/`--` cases
of the source are outside the modelled AST. -/
def compilePrefixUnaryWith (us : Nat) (operatorTok : Nat) (operandAst : AstExpr)
    (operandRes : ExprResult) (contextualType : Ty) : ExprResult :=
  let operand := operandRes.expr
  let operandType := operandRes.ty
  if operatorTok = exclamationTok then
    if operandType = Ty.float then
      ⟨.f32eq operand (.f32const 0), .bool, operandRes.diags⟩
    else if operandType = Ty.double then
      ⟨.f64eq operand (.f64const 0), .bool, operandRes.diags⟩
    else if operandType.isLong then
      ⟨.i64eqz operand, .bool, operandRes.diags⟩
    else
      ⟨.i32eqz operand, .bool, operandRes.diags⟩
  else if operatorTok = plusTok then
    ⟨operand, operandType, operandRes.diags⟩
  else if operatorTok = minusTok then
    if operandType = Ty.float then
      ⟨.f32neg (.astNode operandAst), operandType, operandRes.diags⟩
    else if operandType = Ty.double then
      ⟨.f64neg (.astNode operandAst), operandType, operandRes.diags⟩
    else if operandType.isLong then
      ⟨.i64sub (.i64const 0 0) operand, operandType, operandRes.diags⟩
    else
      let r := maybeConvertValue us (.i32sub (.i32const 0) operand) .int operandType true
      ⟨r.1, operandType, operandRes.diags ++ r.2⟩
  else if operatorTok = tildeTok then
    if operandType.isLong then
      ⟨.i64xor operand (.i64const (-1) (-1)), operandType, operandRes.diags⟩
    else if operandType.isInt then
      ⟨.i32xor operand (.i32const (-1)), operandType, operandRes.diags⟩
    else if contextualType.isLong then
      let r := maybeConvertValue us operand operandType contextualType true
      ⟨.i64xor r.1 (.i64const (-1) (-1)), contextualType, operandRes.diags ++ r.2⟩
    else
      let r := maybeConvertValue us operand operandType .int true
      ⟨.i32xor r.1 (.i32const (-1)), .int, operandRes.diags ++ r.2⟩
  else
    ⟨.unreachable, contextualType,
      operandRes.diags ++ [.errorD "Unsupported unary prefix operator"]⟩

/-- Modelled from the spec: the compilation's `uintptrType` is
`uintptrType32` when the pointer size is 4, else `uintptrType64`. -/
def uintptrTypeOf (us : Nat) : Ty := if us = 4 then .uintptr32 else .uintptr64

/-- `Compiler.compileExpression` (source lines 663-719), restricted to
the modelled node kinds: parenthesized/binary/access/call/new nodes are
outside the modelled AST. -/
def compileExpression (currentLocals : List (String × Variable)) (us : Nat) :
    AstExpr → Ty → ExprResult
  | .ident name, contextualType => compileIdentifier currentLocals us name contextualType
  | .numLit v, contextualType => compileLiteral v contextualType
  | .unary op operand, contextualType =>
    compilePrefixUnaryWith us op operand
      (compileExpression currentLocals us operand contextualType) contextualType
  | .trueLit, _ => ⟨valueOf .bool 1, .bool, []⟩
  | .falseLit, _ => ⟨valueOf .bool 0, .bool, []⟩
  | .nullLit, _ => ⟨valueOf (uintptrTypeOf us) 0, uintptrTypeOf us, []⟩

/-- `compilePrefixUnary` (src/expressions/prefixunary): compile the
operand with the contextual type, then dispatch on the operator token. -/
def compilePrefixUnary (currentLocals : List (String × Variable)) (us : Nat)
    (operatorTok : Nat) (operandAst : AstExpr) (contextualType : Ty) : ExprResult :=
  compilePrefixUnaryWith us operatorTok operandAst
    (compileExpression currentLocals us operandAst contextualType) contextualType

/-! ## Break contexts and statement lowering -/

/-- The break context: `(currentBreakContextNumber,
currentBreakContextDepth)`, both 0 at function entry. -/
structure BreakCtx where
  number : Nat
  depth : Nat
deriving DecidableEq, Repr

/-- `Compiler.currentBreakLabel`: the string `number + "." + depth`. -/
def currentBreakLabel (c : BreakCtx) : String :=
  Nat.repr c.number ++ "." ++ Nat.repr c.depth

/-- `Compiler.enterBreakContext` (source lines 598-603): bump the number
when the depth is 0, increment the depth, return the current label. -/
def enterBreakContext (c : BreakCtx) : String × BreakCtx :=
  let c := if c.depth = 0 then { c with number := c.number + 1 } else c
  let c := { c with depth := c.depth + 1 }
  (currentBreakLabel c, c)

/-- `Compiler.leaveBreakContext` (source lines 605-609): decrement the
depth.  The source throws on depth < 1; in the modelled lowerers every
leave is preceded by an enter, so that branch is unreachable and the
model uses truncating subtraction. -/
def leaveBreakContext (c : BreakCtx) : BreakCtx :=
  { c with depth := c.depth - 1 }

/-- Source AST statements, restricted to the kinds exercised by the
claims: empty statement, expression statement and while.  A while's body
is optional, as in the source (`if (node.statement)`). -/
inductive AstStmt
  | sempty
  | sexpr (e : AstExpr)
  | swhile (cond : AstExpr) (body : Option AstStmt)
deriving Repr

/-- `Compiler.compileStatement` (source lines 615-661) restricted to the
modelled kinds, threading the break context.  The `swhile` case is
`compileWhile` (src/statements/while.ts) inlined: enter the break
context, lower the optional body, append `br continue$label`, build
`loop continue$label (if cond ifTrue)` inside `block break$label`, leave
the break context.  The expression-statement case is modelled from the
spec (its lowerer is not among the sources): it lowers the expression in
a void context. -/
def compileStatement (currentLocals : List (String × Variable)) (us : Nat)
    (ctx : BreakCtx) : AstStmt → Expr × BreakCtx
  | .sempty => (.nop, ctx)
  | .sexpr e => ((compileExpression currentLocals us e .void).expr, ctx)
  | .swhile cond body =>
    let lc := enterBreakContext ctx
    let label := lc.1
    let condRes := compileExpression currentLocals us cond .int
    let condExpr := (maybeConvertValue us condRes.expr condRes.ty .int true).1
    match body with
    | some b =>
      let br := compileStatement currentLocals us lc.2 b
      -- ifTrue = [body, br continue$label], length 2, hence block("")
      (.block ("break$" ++ label)
        [.loop ("continue$" ++ label)
          (.if_ condExpr (.block "" [br.1, .br ("continue$" ++ label)]))],
        leaveBreakContext br.2)
    | none =>
      -- ifTrue = [br continue$label], length 1, used directly
      (.block ("break$" ++ label)
        [.loop ("continue$" ++ label)
          (.if_ condExpr (.br ("continue$" ++ label)))],
        leaveBreakContext lc.2)

/-! ## Local-slot allocation (`onVariable`) -/

/-- The while loop inside `onVariable` (source lines 529-539): starting
from the original name and `alternative = 1`, append `"." + alternative`
(then bump `alternative`) as long as the current candidate is taken.  The
source loop terminates because the map of locals is finite; the model
makes that explicit with a fuel bounded by the number of locals plus
one (more candidates than occupied names, so the fuel never runs out). -/
def onVariableLoop (currentLocals : List (String × Variable))
    (originalName : String) : Nat → String → Nat → String
  | 0, name, _ => name
  | fuel + 1, name, alternative =>
    if (currentLocals.lookup name).isSome then
      onVariableLoop currentLocals originalName fuel
        (originalName ++ "." ++ Nat.repr alternative) (alternative + 1)
    else name

/-- The per-function codegen state captured by the `onVariable` closure:
the `currentLocals` map, the list of additional (body-declared) local
types, and the next free local slot index. -/
structure FuncLocalsState where
  currentLocals : List (String × Variable)
  additionalLocals : List WasmType
  localIndex : Nat
deriving Repr

/-- The `onVariable` closure of `Compiler.compileFunctionOrMethod`
(source lines 529-539): find a free name (suffixing the original on a
clash), register the variable under it at the current `localIndex`,
record the binaryen type in `additionalLocals`, and return `localIndex`
post-incrementing it. -/
def onVariable (us : Nat) (s : FuncLocalsState) (originalName : String)
    (ty : Ty) : Nat × FuncLocalsState :=
  let name := onVariableLoop s.currentLocals originalName
    (s.currentLocals.length + 1) originalName 1
  (s.localIndex,
    { currentLocals := s.currentLocals ++ [(name, ⟨name, ty, s.localIndex⟩)],
      additionalLocals := s.additionalLocals ++ [typeOf ty us],
      localIndex := s.localIndex + 1 })

/-! ## Name mangling

`Compiler.mangleGlobalName` (source lines 220-229) prepends to names from
files other than the entry and library files the sanitized relative path
from the entry file's directory.  The host `path` module (an external
collaborator) is modelled for POSIX-style relative paths without a
current-directory prefix. -/

/-- Split a character list at every `/`. -/
def splitOnSlash : List Char → List (List Char)
  | [] => [[]]
  | c :: rest =>
    match splitOnSlash rest with
    | [] => [[]]
    | seg :: segs => if c = '/' then [] :: seg :: segs else (c :: seg) :: segs

/-- Path segments of a string. -/
def pathSegs (s : String) : List String :=
  (splitOnSlash s.data).map fun cs => ⟨cs⟩

/-- Join path segments with `/`. -/
def joinSegs : List String → String
  | [] => ""
  | [x] => x
  | x :: xs => x ++ "/" ++ joinSegs xs

/-- Normalize a relative path's segments: drop empty and `.` segments and
resolve `..` against preceding real segments. -/
def normSegs (acc : List String) : List String → List String
  | [] => acc
  | seg :: rest =>
    if seg = "" || seg = "." then normSegs acc rest
    else if seg = ".." then
      match acc.getLast? with
      | none => normSegs [".."] rest
      | some last =>
        if last = ".." then normSegs (acc ++ [".."]) rest
        else normSegs acc.dropLast rest
    else normSegs (acc ++ [seg]) rest

/-- Model of `path.normalize` for relative POSIX paths. -/
def pathNormalize (s : String) : String :=
  let segs := normSegs [] (pathSegs s)
  if segs = [] then "." else joinSegs segs

/-- Model of `path.dirname` for relative POSIX paths. -/
def pathDirname (s : String) : String :=
  let segs := pathSegs s
  if segs.length ≤ 1 then "." else joinSegs segs.dropLast

/-- Drop the common prefix of two segment lists. -/
def dropCommonPrefix : List String → List String → List String × List String
  | a :: as, b :: bs =>
    if a = b then dropCommonPrefix as bs else (a :: as, b :: bs)
  | as, bs => (as, bs)

/-- Model of `path.relative` for two paths relative to one working
directory: drop the common prefix, climb with `..` for what is left of
`f` and descend into what is left of `t`. -/
def pathRelative (f t : String) : String :=
  let fs := normSegs [] (pathSegs f)
  let ts := normSegs [] (pathSegs t)
  let r := dropCommonPrefix fs ts
  joinSegs (r.1.map (fun _ => "..") ++ r.2)

/-- `path.sep` (POSIX). -/
def pathSep : String := "/"

/-- The character class kept by the sanitizing regex replace in
`mangleGlobalName`: `[a-zA-Z0-9./\\$]` (everything else is stripped). -/
def keptByMangle (c : Char) : Bool :=
  c.isAlphanum || c = '.' || c = '/' || c = '\\' || c = '$'

/-- The regex replace of `mangleGlobalName`: strip every character
outside `[a-zA-Z0-9./\\$]`. -/
def sanitizeMangle (s : String) : String := ⟨s.data.filter keptByMangle⟩

/-- `Compiler.mangleGlobalName` (source lines 220-229).  Source files are
identified by file name (the source compares the `SourceFile` objects of
one program, which are in bijection with their file names). -/
def mangleGlobalName (entryFileName libraryFileName : String) (name : String)
    (sourceFileName : String) : String :=
  if sourceFileName ≠ entryFileName ∧ sourceFileName ≠ libraryFileName then
    sanitizeMangle (pathRelative (pathDirname (pathNormalize entryFileName))
        (pathNormalize sourceFileName))
      ++ pathSep ++ name
  else name

/-! ## Compiler construction -/

/-- `CompilerOptions`: all fields optional, `uintptrSize` a plain
JavaScript number (modelled as `Int`; `NaN` is outside the model). -/
structure CompilerOptions where
  uintptrSize : Option Int := none
  noLib : Option Bool := none
  silent : Option Bool := none
deriving Repr

/-- JavaScript truthiness of an optional number: `undefined` and `0` are
falsy. -/
def jsTruthyNum : Option Int → Bool
  | none => false
  | some v => v != 0

/-- The `Compiler.uintptrSize` getter: `this.options.uintptrSize || 4`
(a falsy value, absent or zero, yields the default 4). -/
def effectiveUintptrSize (opts : CompilerOptions) : Int :=
  match opts.uintptrSize with
  | some v => if v != 0 then v else 4
  | none => 4

/-- The part of the compiler state fixed at construction that the claims
are about. -/
structure CompilerCore where
  uintptrSize : Int
  uintptrType : Ty
deriving DecidableEq, Repr

/-- The option handling of the `Compiler` constructor (source lines
164-181): throw "unsupported uintptrSize" when `options.uintptrSize` is
truthy and neither 4 nor 8, and fix `uintptrType` as `uintptrType32`
exactly when the pointer size is 4, else `uintptrType64`. -/
def constructCompiler (options : Option CompilerOptions) :
    Except String CompilerCore :=
  let opts := options.getD {}
  if jsTruthyNum opts.uintptrSize ∧ opts.uintptrSize ≠ some 4 ∧
      opts.uintptrSize ≠ some 8 then
    .error "unsupported uintptrSize"
  else
    let us := effectiveUintptrSize opts
    .ok ⟨us, if us = 4 then .uintptr32 else .uintptr64⟩

/-! ## Initialization pass and allocator integration -/

/-- A binaryen function type: optional result plus parameter types. -/
structure FuncType where
  result : Option WasmType
  params : List WasmType
deriving DecidableEq, Repr

/-- A function added to the module: name, type, additional local types
and body. -/
structure FuncDef where
  name : String
  type : FuncType
  locals : List WasmType
  body : Expr

/-- A top-level source statement, restricted to the kind that touches
`globalInitializers`: a variable statement with its declarations `(name,
declared type, optional initializer)`.  Function, class and enum
declarations never push global initializers and are omitted. -/
inductive TopStmt
  | varStmt (isConst : Bool) (decls : List (String × Ty × Option AstExpr))

/-- The slice of the compiler/module state built by the initialize pass
that the claims are about. -/
structure InitState where
  moduleGlobals : List (String × WasmType × Bool × Expr) := []
  globalInitializers : List Expr := []
  globalsMap : List (String × Variable) := []
  exportsRemoved : List String := []
  moduleFunctions : List FuncDef := []
  moduleExports : List (String × String) := []
  memoryPages : Option (Nat × Nat) := none
  diags : List Diag := []

/-- `Compiler.createGlobal` (source lines 338-368): register the
reflection variable; a numeric-literal initializer becomes a constant
global; a non-literal initializer of a mutable global becomes a
zero-initialized global plus a deferred `setGlobal` pushed onto
`globalInitializers`; a non-literal initializer of a constant global is
an error; no initializer becomes a zero-initialized global. -/
def createGlobal (us : Nat) (s : InitState) (name : String) (ty : Ty)
    (mutable : Bool) (initializerNode : Option AstExpr) : InitState :=
  let s : InitState := { s with globalsMap := s.globalsMap ++ [(name, ⟨name, ty, 0⟩)] }
  match initializerNode with
  | some node =>
    match node with
    | .numLit v =>
      { s with moduleGlobals :=
          s.moduleGlobals ++ [(name, typeOf ty us, mutable, (compileLiteral v ty).expr)] }
    | _ =>
      if mutable then
        let r := compileExpression [] us node ty
        let conv := maybeConvertValue us r.expr r.ty ty false
        { s with
          moduleGlobals := s.moduleGlobals ++ [(name, typeOf ty us, mutable, valueOf ty 0)],
          globalInitializers := s.globalInitializers ++ [.setGlobal name conv.1],
          diags := s.diags ++ r.diags ++ conv.2 }
      else
        { s with diags := s.diags ++ [.errorD "Unsupported global constant initializer"] }
  | none =>
    { s with moduleGlobals := s.moduleGlobals ++ [(name, typeOf ty us, mutable, valueOf ty 0)] }

/-- `Compiler.initializeGlobal` (source lines 319-336): one `createGlobal`
per declaration, mutable when the declaration list is not `const`.  (The
model keeps names unmangled: all modelled statements come from the entry
file, for which `mangleGlobalName` is the identity.) -/
def initializeGlobal (us : Nat) (s : InitState) (isConst : Bool)
    (decls : List (String × Ty × Option AstExpr)) : InitState :=
  decls.foldl (fun s d => createGlobal us s d.1 d.2.1 (!isConst) d.2.2) s

/-- `Compiler.initializeLibrary` (source lines 279-317): add the mutable
pointer-typed global `.msp` initialized to 0, push the start-time
initializer storing `mspace_init(uintptrSize * 2)` into `.msp`, remove
the `mspace_*` exports, add the `malloc`/`free` wrappers and export them.
(The signature-cache bookkeeping is elided; the wrappers' types appear
directly on the added functions.) -/
def initializeLibrary (us : Nat) (s : InitState) : InitState :=
  let uptr := uintptrTypeOf us
  let ptrTy := typeOf uptr us
  let s : InitState := { s with moduleGlobals := s.moduleGlobals ++ [(".msp", ptrTy, true, valueOf uptr 0)] }
  let s : InitState := { s with globalInitializers := s.globalInitializers ++
      [.setGlobal ".msp" (.call "mspace_init" [valueOf uptr (us * 2)] ptrTy)] }
  let s : InitState := { s with exportsRemoved := s.exportsRemoved ++
      ["mspace_init", "mspace_malloc", "mspace_free"] }
  let s : InitState := { s with moduleFunctions := s.moduleFunctions ++
      [⟨"malloc", ⟨some ptrTy, [ptrTy]⟩, [],
        .block "" [.ret (.call "mspace_malloc"
          [.getGlobal ".msp" ptrTy, .getLocal 0 ptrTy] ptrTy)]⟩] }
  let s : InitState := { s with moduleFunctions := s.moduleFunctions ++
      [⟨"free", ⟨none, [ptrTy]⟩, [],
        .block "" [.call "mspace_free"
          [.getGlobal ".msp" ptrTy, .getLocal 0 ptrTy] .noneTy]⟩] }
  { s with moduleExports := s.moduleExports ++ [("malloc", "malloc"), ("free", "free")] }

/-- The initialize pass of the compiler (source lines 232-277), restricted to the
statement kinds that touch the modelled state: scan the top-level
statements (variable statements call `initializeGlobal`), then -- after
the whole scan -- either set up the freestanding memory (`noLib`) or run
`initializeLibrary`. -/
def initPass (us : Nat) (noLib : Bool) (stmts : List TopStmt)
    (s : InitState) : InitState :=
  let s := stmts.foldl
    (fun s st => match st with
      | TopStmt.varStmt isConst decls => initializeGlobal us s isConst decls) s
  if noLib then { s with memoryPages := some (1, 65535) }
  else initializeLibrary us s

/-! ## Start-function synthesis -/

/-- The slice of compiler/module state consumed by
`maybeCompileStartFunction`: the deferred global initializers, the user
`start` handle (the name of the compiled function, when one with void
signature and no parameters was seen), the signature cache, the module's
registered function types, functions and start reference. -/
structure StartState where
  globalInitializers : List Expr
  userStartFunction : Option String
  signatures : List (String × FuncType)
  funcTypes : List FuncType
  functions : List FuncDef
  startRef : Option String

/-- `Compiler.maybeCompileStartFunction` (source lines 478-504): with no
global initializers, set the user `start` (when present) as the module
start and do nothing else; otherwise synthesize a void-signature function
whose body is every global initializer in list order followed -- when a
user `start` exists -- by `call start`, and set it as the module start. -/
def maybeCompileStartFunction (s : StartState) : StartState :=
  if s.globalInitializers.isEmpty then
    match s.userStartFunction with
    | some f => { s with startRef := some f }
    | none => s
  else
    let body : List Expr := s.globalInitializers ++
      (match s.userStartFunction with
       | some _ => [.call "start" [] .noneTy]
       | none => [])
    let vty : FuncType := ⟨none, []⟩
    let cached := (s.signatures.lookup "v").isSome
    let signatures := if cached then s.signatures else s.signatures ++ [("v", vty)]
    let funcTypes :=
      if cached || s.funcTypes.contains vty then s.funcTypes else s.funcTypes ++ [vty]
    let fname := match s.userStartFunction with
      | some _ => "executeGlobalInitializersAndCallStart"
      | none => "executeGlobalInitalizers"
    { s with
      signatures := signatures,
      funcTypes := funcTypes,
      functions := s.functions ++ [⟨fname, vty, [], .block "" body⟩],
      startRef := some fname }

/-! ## Helper lemmas -/

/-- String append acts as list append on the character data. -/
theorem stringDataAppend (a b : String) : (a ++ b).data = a.data ++ b.data := by
  cases a; cases b; rfl

/-- Strings with equal character data are equal. -/
theorem stringDataInj (a b : String) (h : a.data = b.data) : a = b := by
  cases a; cases b; exact congrArg String.mk h

/-- String append is associative. -/
theorem stringAppendAssoc (a b c : String) : a ++ b ++ c = a ++ (b ++ c) := by
  refine stringDataInj _ _ ?_
  rw [stringDataAppend, stringDataAppend, stringDataAppend, stringDataAppend,
    List.append_assoc]

/-- String append is left-cancellative. -/
theorem stringAppendLeftCancel (p a b : String) (h : p ++ a = p ++ b) : a = b := by
  have h2 := congrArg String.data h
  rw [stringDataAppend, stringDataAppend] at h2
  exact stringDataInj _ _ (List.append_cancel_left h2)

/-- The conversion engine short-circuits on equal kinds (source line 722). -/
theorem maybeConvertValue_kind_eq (us : Nat) (e : Expr) (f t : Ty) (x : Bool)
    (h : f.kind = t.kind) : maybeConvertValue us e f t x = (e, []) := by
  unfold maybeConvertValue
  rw [if_pos h]

/-- Distinct members of the 32-bit integer family have distinct kinds. -/
theorem fam_kind_ne (f t : Ty) (hf : f.isIntegerFamily32 = true)
    (ht : t.isIntegerFamily32 = true) (hne : f ≠ t) : ¬ f.kind = t.kind := by
  revert hf ht hne
  revert f t
  decide

/-- A 32-bit-family type is not the float type. -/
theorem fam_ne_float (t : Ty) (h : t.isIntegerFamily32 = true) : ¬ t = Ty.float := by
  revert h; revert t; decide

/-- A 32-bit-family type is not the double type. -/
theorem fam_ne_double (t : Ty) (h : t.isIntegerFamily32 = true) : ¬ t = Ty.double := by
  revert h; revert t; decide

/-- No 32-bit-family type is a 64-bit integer type. -/
theorem fam_isLong_false (t : Ty) (h : t.isIntegerFamily32 = true) : t.isLong = false := by
  revert h; revert t; decide

/-- A 32-bit-family type narrower than 32 bits is not `isInt`. -/
theorem fam_narrow_isInt_false (t : Ty) (h : t.isIntegerFamily32 = true)
    (hw : t.bitWidth < 32) : t.isInt = false := by
  revert h hw; revert t; decide

/-- Label of the outermost block of an IR expression, when it is one. -/
def outerBlockLabel : Expr → Option String
  | .block l _ => some l
  | _ => none

/-! ## Claim theorems -/

/-- C1: the claim states that in non-freestanding compilations the `.msp`
initializer is ordered before every user global initializer in
`globalInitializers`.  The code does the opposite: `initializeLibrary`
runs after the whole source scan, so the `.msp` initializer is pushed
last.  For a program with one mutable global `g: int = -5`, the list is
`[set g, set .msp]` -- the user initializer precedes the (distinct)
`.msp` initializer, so the `.msp` store runs last, not first. -/
theorem c1_msp_initializer_is_last :
    (initPass 4 false
      [.varStmt false [("g", Ty.int, some (.unary minusTok (.numLit 5)))]]
      {}).globalInitializers =
      [Expr.setGlobal "g" (.i32sub (.i32const 0) (.i32const 5)),
       Expr.setGlobal ".msp" (.call "mspace_init" [.i32const 8] .i32)] ∧
    Expr.setGlobal "g" (.i32sub (.i32const 0) (.i32const 5)) ≠
      Expr.setGlobal ".msp" (.call "mspace_init" [.i32const 8] .i32) := by
  constructor
  · simp [initPass, initializeGlobal, createGlobal, initializeLibrary,
      compileExpression, compilePrefixUnaryWith, compileLiteral, compileIdentifier,
      valueOf, uintptrTypeOf, typeOf, minusTok, exclamationTok, plusTok,
      maybeConvertValue, intToOtherInt, Ty.kind, Ty.isLong, Ty.isInt]
  · simp

/-- C2: every conversion that narrows within the 32-bit integer family
(both types in the family, a genuine conversion between distinct types,
source at least as wide as the target, target narrower than 32 bits)
emits `shl(shr_s(expr, target.shift32), target.shift32)` when the target
is signed and `and(expr, target.mask32)` when it is unsigned, for either
value of the explicit flag. -/
theorem c2_narrowing_shape (us : Nat) (e : Expr) (fromType toType : Ty)
    (explicit : Bool)
    (hf : fromType.isIntegerFamily32 = true) (ht : toType.isIntegerFamily32 = true)
    (hsz : toType.size ≤ fromType.size) (hw : toType.bitWidth < 32)
    (hne : fromType ≠ toType) :
    (maybeConvertValue us e fromType toType explicit).1 =
      if toType.isSigned then
        Expr.i32shl (.i32shr_s e (.i32const toType.shift32)) (.i32const toType.shift32)
      else Expr.i32and e (.i32const toType.mask32) := by
  have hk := fam_kind_ne fromType toType hf ht hne
  have h1 := fam_ne_float fromType hf
  have h2 := fam_ne_double fromType hf
  have h3 := fam_ne_float toType ht
  have h4 := fam_ne_double toType ht
  have h5 := fam_isLong_false toType ht
  have h6 := fam_isLong_false fromType hf
  have h7 := fam_narrow_isInt_false toType ht hw
  have h8 : ¬ fromType.size < toType.size := by omega
  unfold maybeConvertValue
  rw [if_neg hk, dif_neg h1, dif_neg h2, if_neg h3, if_neg h4]
  rw [if_neg (by simp [h5]), if_neg (by simp [h6])]
  unfold intToOtherInt
  rw [if_neg (by simp [h7, h8])]
  by_cases hs : toType.isSigned = true
  · simp [hs]
  · simp [hs]

/-- C2 witness: converting an int expression to sbyte emits the signed
sign-extension idiom with shift 24. -/
theorem c2_narrowing_shape_witness :
    (maybeConvertValue 4 (.i32const 7) .int .sbyte true).1 =
      (if Ty.sbyte.isSigned then
        Expr.i32shl (.i32shr_s (.i32const 7) (.i32const Ty.sbyte.shift32))
          (.i32const Ty.sbyte.shift32)
      else Expr.i32and (.i32const 7) (.i32const Ty.sbyte.mask32)) :=
  c2_narrowing_shape 4 (.i32const 7) .int .sbyte true (by decide) (by decide)
    (by decide) (by decide) (by decide)

/-- C3: start-function synthesis.  With no global initializers, a present
user `start` is set as the module start and no function is added, and
with no user `start` nothing changes at all; with initializers, a single
void-signature function is added whose body is the initializers in list
order followed by `call start` exactly when a user `start` exists, and
that function becomes the module start. -/
theorem c3_start_synthesis (s : StartState) :
    (s.globalInitializers = [] → s.userStartFunction = none →
      maybeCompileStartFunction s = s) ∧
    (s.globalInitializers = [] → ∀ f, s.userStartFunction = some f →
      (maybeCompileStartFunction s).startRef = some f ∧
      (maybeCompileStartFunction s).functions = s.functions) ∧
    (s.globalInitializers ≠ [] →
      ∃ fd : FuncDef,
        (maybeCompileStartFunction s).functions = s.functions ++ [fd] ∧
        fd.type = ⟨none, []⟩ ∧
        fd.body = Expr.block "" (s.globalInitializers ++
          (match s.userStartFunction with
           | some _ => [Expr.call "start" [] .noneTy]
           | none => [])) ∧
        (maybeCompileStartFunction s).startRef = some fd.name) := by
  refine ⟨?_, ?_, ?_⟩
  · intro h1 h2
    simp [maybeCompileStartFunction, h1, h2]
  · intro h1 f h2
    simp [maybeCompileStartFunction, h1, h2]
  · intro h1
    have hne : s.globalInitializers.isEmpty = false := by
      cases hgi : s.globalInitializers with
      | nil => exact absurd hgi h1
      | cons a l => rfl
    unfold maybeCompileStartFunction
    rw [if_neg (by simp [hne])]
    exact ⟨_, rfl, rfl, rfl, rfl⟩

/-- C3 witness: the three cases of the synthesizer at concrete states --
no initializers without and with a user start, and one initializer with a
user start whose synthesized body ends in `call start`. -/
theorem c3_start_synthesis_witness :
    maybeCompileStartFunction ⟨[], none, [], [], [], none⟩ = ⟨[], none, [], [], [], none⟩ ∧
    (maybeCompileStartFunction ⟨[], some "start", [], [], [], none⟩).startRef = some "start" ∧
    (∃ fd : FuncDef,
      (maybeCompileStartFunction ⟨[.nop], some "start", [], [], [], none⟩).functions
        = [] ++ [fd] ∧
      fd.type = ⟨none, []⟩ ∧
      fd.body = Expr.block "" ([.nop] ++ [Expr.call "start" [] .noneTy]) ∧
      (maybeCompileStartFunction ⟨[.nop], some "start", [], [], [], none⟩).startRef
        = some fd.name) := by
  refine ⟨(c3_start_synthesis _).1 rfl rfl,
    ((c3_start_synthesis _).2.1 rfl "start" rfl).1, ?_⟩
  exact (c3_start_synthesis ⟨[.nop], some "start", [], [], [], none⟩).2.2 (by simp)

/-- C4 counterexample: the claim expects the first loop of a function to
be labeled `break`/`continue` with `1.0`.  Compiling a first `while`
from the entry break context (number 0, depth 0) labels the outer block
`break$1.1`: `enterBreakContext` first bumps the number to 1 and the
depth to 1 and only then reads the label, so the first label is `1.1`,
not `1.0`. -/
theorem c4_first_while_label_not_one_dot_zero :
    outerBlockLabel (compileStatement [] 4 ⟨0, 0⟩ (.swhile (.numLit 0) (some .sempty))).1
      = some "break$1.1" ∧ ("break$1.1" : String) ≠ "break$1.0" := by
  refine ⟨rfl, by decide⟩

/-- C4 amended: for the first loop compiled in a function (break context
(0,0)), a while with a body lowers to a block labeled `break$1.1`
containing a loop labeled `continue$1.1` whose body is an if on the
converted condition containing the lowered body followed by a branch to
`continue$1.1`; the label is number.depth read after entering bumped the
number to 1 and the depth to 1. -/
theorem c4_amended_first_while_shape (env : List (String × Variable)) (us : Nat)
    (cond : AstExpr) (body : AstStmt) :
    compileStatement env us ⟨0, 0⟩ (.swhile cond (some body)) =
      (Expr.block "break$1.1"
        [Expr.loop "continue$1.1"
          (Expr.if_
            ((maybeConvertValue us (compileExpression env us cond .int).expr
                (compileExpression env us cond .int).ty .int true).1)
            (Expr.block "" [(compileStatement env us ⟨1, 1⟩ body).1,
              Expr.br "continue$1.1"]))],
       leaveBreakContext (compileStatement env us ⟨1, 1⟩ body).2) := by
  rfl

/-- C5: the claim states the round trip A -> B -> A is the identity for
same-signedness integer types with A.size <= B.size.  The code emits the
sign-extension idiom with the shifts in the wrong order --
`shl(shr_s(x, 24), 24)` instead of `shr_s(shl(x, 24), 24)` -- which
clears the low bits instead of sign-extending; round-tripping the sbyte
value 1 through short evaluates to 0, not 1, contradicting both the
claim and the code's own "sign-extend" comment. -/
theorem c5_roundtrip_sbyte_short_fails :
    evalI32 ((maybeConvertValue 4
        ((maybeConvertValue 4 (.i32const 1) .sbyte .short true).1)
        .short .sbyte true).1) = some 0 ∧ (some (0 : Int) ≠ some (1 : Int)) := by
  have h1 : maybeConvertValue 4 (.i32const 1) .sbyte .short true = (.i32const 1, []) := by
    simp [maybeConvertValue, intToOtherInt, Ty.kind, Ty.size, Ty.isInt, Ty.isLong]
  have h2 : maybeConvertValue 4 (.i32const 1) .short .sbyte true =
      (.i32shl (.i32shr_s (.i32const 1) (.i32const 24)) (.i32const 24), []) := by
    simp [maybeConvertValue, intToOtherInt, Ty.kind, Ty.size, Ty.isInt, Ty.isLong,
      Ty.isSigned, Ty.shift32, Ty.bitWidth]
  rw [h1, h2]
  refine ⟨?_, by decide⟩
  decide

/-- C6 counterexample: registering a shadowed local `x` places it under
`x.1`, not `x.2` as the claim states -- the source's `alternative`
counter starts at 1 and is used before being incremented. -/
theorem c6_first_alternative_is_dot_one :
    ((onVariable 4 ⟨[("x", ⟨"x", Ty.int, 0⟩)], [], 1⟩ "x" Ty.int).2.currentLocals.map
        Prod.fst) = ["x", "x.1"] ∧
    ("x.1" : String) ≠ "x.2" := by
  exact ⟨rfl, by decide⟩

/-- C6 amended: when the declared name is taken and `name.1` is free,
`onVariable` registers the local under the fresh name `name.1` (the
suffixes run `.1`, `.2`, ...), records its binaryen type, and assigns it
the next contiguous local slot index, post-incrementing the counter. -/
theorem c6_amended_shadowed_gets_dot_one (us : Nat) (s : FuncLocalsState)
    (n : String) (ty : Ty)
    (h1 : (s.currentLocals.lookup n).isSome = true)
    (h2 : s.currentLocals.lookup (n ++ ".1") = none) :
    onVariable us s n ty =
      (s.localIndex,
        ⟨s.currentLocals ++ [(n ++ ".1", ⟨n ++ ".1", ty, s.localIndex⟩)],
         s.additionalLocals ++ [typeOf ty us],
         s.localIndex + 1⟩) := by
  have hdot : n ++ "." ++ Nat.repr 1 = n ++ ".1" := by
    rw [show Nat.repr 1 = "1" from rfl, stringAppendAssoc]
    exact congrArg (fun x => n ++ x) rfl
  have hname : onVariableLoop s.currentLocals n (s.currentLocals.length + 1) n 1
      = n ++ ".1" := by
    obtain ⟨k, hk⟩ : ∃ k, s.currentLocals.length = k + 1 := by
      cases hl : s.currentLocals with
      | nil => rw [hl] at h1; simp [List.lookup] at h1
      | cons a l => exact ⟨l.length, by simp [hl]⟩
    rw [hk]
    simp [onVariableLoop, h1, hdot, h2]
  unfold onVariable
  rw [hname]

/-- C6 amended witness: shadowing `x` at slot 1 registers `x.1` at index
1 and bumps the slot counter to 2. -/
theorem c6_amended_witness :
    onVariable 4 ⟨[("x", ⟨"x", Ty.int, 0⟩)], [], 1⟩ "x" Ty.int =
      (1, ⟨[("x", ⟨"x", Ty.int, 0⟩), ("x.1", ⟨"x.1", Ty.int, 1⟩)], [.i32], 2⟩) := by
  have h := c6_amended_shadowed_gets_dot_one 4 ⟨[("x", ⟨"x", Ty.int, 0⟩)], [], 1⟩ "x" Ty.int
    (by decide) (by decide)
  exact h

/-- C7: the claim states that prefix `-` on a float operand lowers to
the floating-point negation of the LOWERED operand.  The code instead
passes the raw AST node `node.operand` to `f32.neg` (the sibling long
branch correctly uses the lowered `operand`), so the emitted node wraps
the AST node, not the `get_local` the operand lowers to; the reflected
type is still set to the operand's type. -/
theorem c7_float_neg_gets_ast_node :
    compilePrefixUnary [("x", ⟨"x", Ty.float, 0⟩)] 4 minusTok (.ident "x") Ty.float =
      ⟨.f32neg (.astNode (.ident "x")), Ty.float, []⟩ ∧
    Expr.f32neg (.astNode (.ident "x")) ≠
      Expr.f32neg (compileExpression [("x", ⟨"x", Ty.float, 0⟩)] 4 (.ident "x") Ty.float).expr := by
  constructor
  · rfl
  · simp [compileExpression, compileIdentifier, typeOf, List.lookup]

/-- C8 counterexample: mangling is not injective across source files --
the sanitizer strips `-`, so the distinct files `a-b.ts` and `ab.ts`
(neither the entry nor the library file) map the same name `x` to the
same mangled name `ab.ts/x`. -/
theorem c8_mangle_collision :
    mangleGlobalName "entry.ts" "assembly.d.ts" "x" "a-b.ts" =
      mangleGlobalName "entry.ts" "assembly.d.ts" "x" "ab.ts" ∧
    ("a-b.ts" : String) ≠ "ab.ts" := by
  refine ⟨rfl, by decide⟩

/-- C8 amended: mangling is injective in the identifier name for any
fixed source file (the prefix is determined by the file, and appending
it is left-cancellative); across distinct files injectivity can fail
because the path sanitizer is lossy. -/
theorem c8_amended_injective_per_file (entry lib file n1 n2 : String)
    (h : mangleGlobalName entry lib n1 file = mangleGlobalName entry lib n2 file) :
    n1 = n2 := by
  unfold mangleGlobalName at h
  by_cases hc : file ≠ entry ∧ file ≠ lib
  · rw [if_pos hc, if_pos hc] at h
    rw [stringAppendAssoc, stringAppendAssoc] at h
    exact stringAppendLeftCancel _ _ _ (stringAppendLeftCancel _ _ _ h)
  · rw [if_neg hc, if_neg hc] at h
    exact h

/-- C8 amended witness: applying per-file injectivity at a concrete
file and name. -/
theorem c8_amended_witness : ("x" : String) = "x" :=
  c8_amended_injective_per_file "entry.ts" "assembly.d.ts" "a-b.ts" "x" "x" rfl

/-- C9 counterexample: the claim says every `uintptrSize` other than 4
or 8 is a construction error, but `0` is falsy in the guard
`options.uintptrSize && ...`, so constructing with `uintptrSize = 0`
does not throw -- it falls back to the default 4 and `uintptrType32`. -/
theorem c9_zero_size_not_rejected :
    constructCompiler (some { uintptrSize := some 0 }) =
      Except.ok ⟨4, .uintptr32⟩ ∧ (0 : Int) ≠ 4 ∧ (0 : Int) ≠ 8 := by
  exact ⟨rfl, by decide, by decide⟩

/-- C9 amended: a truthy (nonzero) `uintptrSize` other than 4 or 8 is a
construction error; an unset (or falsy) value defaults to 4 and yields
`uintptrType32`; `uintptrSize = 8` yields `uintptrType64`; and in any
successfully constructed compiler `uintptrType` is `uintptrType32` when
the effective pointer size is 4 and `uintptrType64` otherwise, so the
two are never mixed within one compilation. -/
theorem c9_amended_construction :
    (∀ v : Int, v ≠ 0 → v ≠ 4 → v ≠ 8 →
      constructCompiler (some { uintptrSize := some v }) =
        Except.error "unsupported uintptrSize") ∧
    constructCompiler none = Except.ok ⟨4, .uintptr32⟩ ∧
    constructCompiler (some { uintptrSize := some 8 }) = Except.ok ⟨8, .uintptr64⟩ ∧
    (∀ o c, constructCompiler o = Except.ok c →
      c.uintptrType =
        (if c.uintptrSize = 4 then Ty.uintptr32 else Ty.uintptr64)) := by
  refine ⟨?_, rfl, rfl, ?_⟩
  · intro v hv0 hv4 hv8
    unfold constructCompiler
    rw [if_pos]
    refine ⟨?_, by simpa using hv4, by simpa using hv8⟩
    simp [jsTruthyNum, hv0]
  · intro o c h
    unfold constructCompiler at h
    dsimp only [] at h
    split at h
    · exact absurd h (by simp)
    · rw [Except.ok.injEq] at h
      subst h
      rfl

/-- C9 amended witness: `uintptrSize = 3` is rejected, and applying the
pointer-type clause at the successfully constructed 8-byte compiler
yields `uintptrType64`. -/
theorem c9_amended_witness :
    constructCompiler (some { uintptrSize := some 3 }) =
      Except.error "unsupported uintptrSize" ∧
    (⟨8, Ty.uintptr64⟩ : CompilerCore).uintptrType =
      (if (⟨8, Ty.uintptr64⟩ : CompilerCore).uintptrSize = 4 then Ty.uintptr32
       else Ty.uintptr64) :=
  ⟨c9_amended_construction.1 3 (by decide) (by decide) (by decide),
   c9_amended_construction.2.2.2 (some { uintptrSize := some 8 }) ⟨8, Ty.uintptr64⟩ rfl⟩

/-- C10: when the source and target types have the same kind,
`maybeConvertValue` returns the input expression unchanged and emits no
diagnostic, for either value of the explicit flag. -/
theorem c10_same_kind_identity (us : Nat) (e : Expr) (fromType toType : Ty)
    (explicit : Bool) (h : fromType.kind = toType.kind) :
    maybeConvertValue us e fromType toType explicit = (e, []) :=
  maybeConvertValue_kind_eq us e fromType toType explicit h

/-- C10 witness: the two pointer widths share the `uintptr` kind, and
converting between them is the identity with no diagnostics. -/
theorem c10_same_kind_identity_witness :
    maybeConvertValue 4 (.i32const 5) .uintptr32 .uintptr64 false = (.i32const 5, []) :=
  c10_same_kind_identity 4 (.i32const 5) .uintptr32 .uintptr64 false rfl
